import Mathlib

/-!
Shallow embedding of the ingestion-and-integrity pipeline of
`aws-ct-json-ddb-amz-q-analysis` (phase-1 CloudTrail ingestion):
`src/phase1/s3_reader.py`, `src/phase1/decompressor.py`,
`src/phase1/validator.py`, plus the helpers from
`src/common/security_utils.py` that they call.

Modelling conventions:
- Calendar dates are encoded as natural-number day ordinals; the Python
  `while current_date <= end_date: ... current_date += timedelta(days=1)`
  loop becomes a fuel-based recursion stepping by one.
- The boto3 client is an external collaborator: per-date pagination is a
  function `Nat -> Except ListFailure (List Page)`, where a failure is
  either a `ClientError` (the one exception the source catches around
  listing) or any other exception (connection faults,
  `NoCredentialsError`, ...), which nothing catches.
- The `dateutil` parser is external: the embedding of `list_objects` takes
  the parse results (`Option` day ordinals) of the configured strings.
- Local filesystem state is passed explicitly: directory contents are lists
  of relative path strings, `Option` distinguishes a missing directory.
- Python string operations (`endswith`, `replace` all-occurrences,
  substring `in`, `strip`) are re-implemented on `List Char` with
  structural recursion so concrete runs reduce in the kernel.
-/

/-- Python `s.endswith(suf)`. -/
def strEndsWith (s suf : String) : Bool :=
  suf.data.isSuffixOf s.data

/-- One step list of Python `s.replace(pat, rep)` (all, leftmost,
non-overlapping occurrences), on character lists, driven by fuel so that it
is structural. Fuel is instantiated with the input length. -/
def replaceAllAux (pat rep : List Char) : Nat → List Char → List Char
  | 0, s => s
  | _, [] => []
  | fuel + 1, c :: rest =>
    if !pat.isEmpty && pat.isPrefixOf (c :: rest) then
      rep ++ replaceAllAux pat rep fuel ((c :: rest).drop pat.length)
    else
      c :: replaceAllAux pat rep fuel rest

/-- Python `s.replace(pat, rep)`: replace every occurrence of `pat` by
`rep`. -/
def strReplaceAll (s pat rep : String) : String :=
  ⟨replaceAllAux pat.data rep.data s.data.length s.data⟩

/-- Python `sub in s` (substring containment) for a non-empty `sub`. -/
def containsSub (sub : List Char) : List Char → Bool
  | [] => sub.isEmpty
  | c :: rest => sub.isPrefixOf (c :: rest) || containsSub sub rest

/-- Python `s.strip(c)` for a single character: drop every leading and
trailing occurrence of `c`. Used for `obj['ETag'].strip('\x22')`. -/
def stripChar (c : Char) (s : String) : String :=
  ⟨(((s.data.dropWhile (· == c)).reverse.dropWhile (· == c)).reverse)⟩

/-- Split a character list on `/`, as `PurePath` parsing does. -/
def splitSlashAux (cur : List Char) : List Char → List (List Char)
  | [] => [cur.reverse]
  | c :: rest =>
    if c = '/' then cur.reverse :: splitSlashAux [] rest
    else splitSlashAux (c :: cur) rest

/-- Lexical resolution of an absolute POSIX path (`Path.resolve()` without
symlinks): empty and `.` segments vanish, `..` pops the previous segment
(at the root it stays at the root). `stack` holds the segments seen so far,
most recent first. -/
def resolveSegs (stack : List (List Char)) : List (List Char) → List (List Char)
  | [] => stack.reverse
  | seg :: rest =>
    if seg = [] ∨ seg = ['.'] then resolveSegs stack rest
    else if seg = ['.', '.'] then resolveSegs stack.tail rest
    else resolveSegs (seg :: stack) rest

/-- Join path segments with `/`. -/
def joinSegs : List (List Char) → List Char
  | [] => []
  | [s] => s
  | s :: rest => s ++ '/' :: joinSegs rest

/-- `Path(p).resolve()` for an absolute path `p`, lexically (no symlinks). -/
def resolvePath (p : String) : String :=
  ⟨'/' :: joinSegs (resolveSegs [] (splitSlashAux [] p.data))⟩

/-! ## `src/phase1/s3_reader.py` -/

/-- An entry of a `list_objects_v2` page's `Contents`, as the store returns
it (the ETag still carries its surrounding quotes). -/
structure RawObj where
  key : String
  size : Nat
  etag : String
  lastModified : Nat
deriving DecidableEq, Repr

/-- The descriptor dict `{'key','size','etag','last_modified'}` that
`S3CloudTrailReader.list_objects` appends for each matching object. -/
structure S3Object where
  key : String
  size : Nat
  etag : String
  last_modified : Nat
deriving DecidableEq, Repr

/-- One page of `list_objects_v2` results; `none` is a page without a
`Contents` entry (the `if 'Contents' in page` guard). -/
def Page : Type := Option (List RawObj)

/-- The `while current_date <= end_date` loop of `list_objects`, emitting
each visited date. Fuel-based so the recursion is structural. -/
def dateLoopAux : Nat → Nat → Nat → List Nat
  | 0, _, _ => []
  | fuel + 1, current, e =>
    if current ≤ e then current :: dateLoopAux fuel (current + 1) e else []

/-- The dates visited by `list_objects` for parsed bounds `s`, `e`: run the
while-loop with exactly the fuel it needs (`e + 1 - s` iterations). -/
def enumDates (s e : Nat) : List Nat :=
  dateLoopAux (e + 1 - s) s e

/-- Per page: the `for obj in page['Contents']` body — keep keys ending in
`.gz`, strip the quotes off the ETag. A page without `Contents` yields
nothing. -/
def pageObjects : Page → List S3Object
  | none => []
  | some objs =>
    (objs.filter (fun o => strEndsWith o.key ".gz")).map
      (fun o => { key := o.key, size := o.size, etag := stripChar '"' o.etag,
                  last_modified := o.lastModified })

/-- Flatten the pages of one date's pagination. -/
def pagesObjects : List Page → List S3Object
  | [] => []
  | p :: rest => pageObjects p ++ pagesObjects rest

/-- How a paginator call can fail: with a `ClientError` service response
— the one exception type the `except ClientError` clause around the
per-date listing catches — or with any other exception (connection
faults, `NoCredentialsError`, ...), which nothing in `list_objects`
catches. -/
inductive ListFailure where
  | clientError : ListFailure
  | otherError : ListFailure
deriving DecidableEq, Repr

/-- One date's contribution to `list_objects`: a `ClientError` from the
paginator is logged and the date contributes nothing (the
`except ClientError` branch); any other exception propagates (`.error`);
otherwise every matching object of every page. -/
def listForDate (fetch : Nat → Except ListFailure (List Page)) (d : Nat) :
    Except Unit (List S3Object) :=
  match fetch d with
  | .error .clientError => .ok []
  | .error .otherError => .error ()
  | .ok pages => .ok (pagesObjects pages)

/-- The whole date loop's accumulation into `objects`: an uncaught
exception at some date aborts the loop (later dates never run), otherwise
the per-date results are concatenated in date order. -/
def collectObjects (fetch : Nat → Except ListFailure (List Page)) :
    List Nat → Except Unit (List S3Object)
  | [] => .ok []
  | d :: ds =>
    match listForDate fetch d with
    | .error e => .error e
    | .ok objs =>
      match collectObjects fetch ds with
      | .error e => .error e
      | .ok rest => .ok (objs ++ rest)

/-- `S3CloudTrailReader.list_objects`, with the `dateutil` parses of
`start_date` / `end_date` passed in: `startParse` is the parse of
`config.start_date` (`none` = the parser raised), `endField` is `none` when
`config.end_date` is absent/falsy, otherwise `some` of its parse result.
A `.error` models an exception propagating out of the method. -/
def list_objects (startParse : Option Nat) (endField : Option (Option Nat))
    (fetch : Nat → Except ListFailure (List Page)) : Except Unit (List S3Object) :=
  match startParse with
  | none => .error ()
  | some s =>
    match endField with
    | none => collectObjects fetch (enumDates s s)
    | some none => .error ()
    | some (some e) => collectObjects fetch (enumDates s e)

/-- The substrings of the denylist in `download_file` (and
`decompress_file`): `any(dangerous in path_str for dangerous in [...])`. -/
def dangerousSegments : List String :=
  ["/etc/", "/usr/", "/bin/", "/sbin/", "/root/"]

/-- What a call to `download_file` did: its return value, how many
`s3_client.download_file` transfer attempts ran, and whether the
`mkdir(parents=True)` before the retry loop ran. -/
structure DownloadTrace where
  succeeded : Bool
  transferAttempts : Nat
  mkdirCalled : Bool
deriving DecidableEq, Repr

/-- The `for attempt in range(max_retries)` retry loop of `download_file`:
`transfer n` tells whether the `(n+1)`-st transfer attempt succeeds (an
exception otherwise). Returns the outcome and the attempts used. -/
def tryDownload (transfer : Nat → Bool) : Nat → Nat → Bool × Nat
  | 0, used => (false, used)
  | k + 1, used =>
    if transfer used then (true, used + 1) else tryDownload transfer k (used + 1)

/-- `S3CloudTrailReader.download_file`: resolve the local path, reject it
(returning `False`, before creating directories or any transfer) when the
resolved string contains a denylisted system-directory segment, then run
the bounded retry loop. -/
def download_file (localPath : String) (transfer : Nat → Bool)
    (maxRetries : Nat) : DownloadTrace :=
  let resolved := resolvePath localPath
  if dangerousSegments.any (fun d => containsSub d.data resolved.data) then
    { succeeded := false, transferAttempts := 0, mkdirCalled := false }
  else
    let r := tryDownload transfer maxRetries 0
    { succeeded := r.1, transferAttempts := r.2, mkdirCalled := true }

/-- `S3CloudTrailReader.validate_download`. `localFile` is `none` when
`local_path.exists()` is false, otherwise `some` of `stat().st_size`.
`hashOutcome` is the result of `SecurityUtils.secure_hash_file` (`.error` =
it raised); the `try/except` swallows a failure and the `expected_etag`
argument is never consulted (the ETag comparison is disabled in the
source). -/
def validate_download (s3_key : String) (localFile : Option Nat)
    (expected_size : Nat) (expected_etag : String)
    (hashOutcome : Except Unit String) : Bool :=
  match localFile with
  | none => false
  | some actual_size =>
    if actual_size ≠ expected_size then false
    else true

/-! ## `src/phase1/decompressor.py` -/

/-- A parsed JSON document, the result of `json.load`. -/
inductive JsonValue where
  | null : JsonValue
  | bool : Bool → JsonValue
  | num : Int → JsonValue
  | str : String → JsonValue
  | arr : List JsonValue → JsonValue
  | obj : List (String × JsonValue) → JsonValue

/-- Python `data[key]` / `key in data` on a dict, as association-list
lookup (dict keys are unique, so first match suffices). -/
def lookupField : List (String × JsonValue) → String → Option JsonValue
  | [], _ => none
  | (k, v) :: rest, key => if k = key then some v else lookupField rest key

/-- `FileDecompressor.validate_json`. `input` is the result of opening and
`json.load`-ing the file: `.error` models a `JSONDecodeError` or any other
exception from the read (both `except` arms return `False`). -/
def validate_json (input : Except Unit JsonValue) : Bool :=
  match input with
  | .error _ => false
  | .ok d =>
    match d with
    | .obj fields =>
      match lookupField fields "Records" with
      | none => false
      | some (.arr _) => true
      | some _ => false
    | _ => false

/-! ## `src/phase1/validator.py` -/

/-- The `ValidationResult` dataclass. `success_rate` is modelled as an
exact rational (Python computes it in floating point). -/
structure ValidationResult where
  total_s3_files : Nat
  downloaded_files : Nat
  decompressed_files : Nat
  validated_json_files : Nat
  failed_downloads : List String
  failed_decompressions : List String
  failed_validations : List String
  success_rate : ℚ

/-- The filename transform of `validate_file_count` for a processed file:
`.json.json` becomes `.json.gz`, else `.json` becomes `.gz` (Python
`replace` rewrites every occurrence). -/
def deriveKey (relative_key : String) : String :=
  if strEndsWith relative_key ".json.json" then
    strReplaceAll relative_key ".json.json" ".json.gz"
  else if strEndsWith relative_key ".json" then
    strReplaceAll relative_key ".json" ".gz"
  else relative_key

/-- The three counts of `IntegrityValidator.validate_file_count`.
`rawFiles` / `processedFiles` are the relative paths of every file under
`raw_path` / `processed_path` (`none` when the directory does not exist);
`rglob` patterns become suffix filters on the relative path. -/
def validate_file_count (s3_objects : List S3Object)
    (rawFiles processedFiles : Option (List String)) : Nat × Nat × Nat :=
  let s3_count := s3_objects.length
  let s3_keys := s3_objects.map (·.key)
  let raw_count :=
    match rawFiles with
    | none => 0
    | some fs =>
      (fs.filter (fun f => strEndsWith f ".gz" && decide (f ∈ s3_keys))).length
  let json_count :=
    match processedFiles with
    | none => 0
    | some fs =>
      ((fs.filter (fun f => strEndsWith f ".json")).filter
        (fun f => decide (deriveKey f ∈ s3_keys))).length
  (s3_count, raw_count, json_count)

/-- `IntegrityValidator.validate`: compute the counts, derive the success
rate and synthesize placeholder failure lists from the count shortfalls. -/
def validate (s3_objects : List S3Object)
    (rawFiles processedFiles : Option (List String)) : ValidationResult :=
  let counts := validate_file_count s3_objects rawFiles processedFiles
  let total_s3 := counts.1
  let downloaded := counts.2.1
  let processed := counts.2.2
  let success_rate : ℚ :=
    if total_s3 > 0 then (processed : ℚ) / (total_s3 : ℚ) * 100 else 0
  let failed_downloads :=
    if downloaded < total_s3 then
      (List.range (total_s3 - downloaded)).map
        (fun i => "missing_" ++ toString i ++ ".gz")
    else []
  let failed_decompressions :=
    if processed < downloaded then
      (List.range (downloaded - processed)).map
        (fun i => "failed_decomp_" ++ toString i ++ ".gz")
    else []
  { total_s3_files := total_s3
    downloaded_files := downloaded
    decompressed_files := processed
    validated_json_files := processed
    failed_downloads := failed_downloads
    failed_decompressions := failed_decompressions
    failed_validations := []
    success_rate := success_rate }

/-- The summary block of `IntegrityValidator.generate_report`. -/
structure IntegrityReport where
  status : String
  total_files_processed : Nat
  issues_found : Nat
deriving DecidableEq, Repr

/-- The status conditional in `generate_report`:
`'SUCCESS' if rate == 100 else 'PARTIAL_SUCCESS' if rate > 0 else
'FAILURE'`. -/
def reportStatus (rate : ℚ) : String :=
  if rate = 100 then "SUCCESS"
  else if rate > 0 then "PARTIAL_SUCCESS"
  else "FAILURE"

/-- The report data `generate_report` builds from a `ValidationResult`
(timestamp and serialization aside). -/
def generate_report (r : ValidationResult) : IntegrityReport :=
  { status := reportStatus r.success_rate
    total_files_processed := r.validated_json_files
    issues_found := r.failed_downloads.length + r.failed_decompressions.length
      + r.failed_validations.length }

/-- Follows the spec's words, for comparison with `download_file`: a
resolved path is inside the configured local root when it extends the root
by a `/`-separated suffix. -/
def specResolvesInsideRoot (root resolved : String) : Bool :=
  (root ++ "/").data.isPrefixOf resolved.data

/-! ## Helper lemmas -/

/-- The date while-loop, run with fuel `e + 1 - c`, is the interval
`[c, c+1, ..., e]`. -/
lemma dateLoopAux_eq_range' (fuel : Nat) : ∀ c e : Nat, fuel = e + 1 - c →
    dateLoopAux fuel c e = List.range' c fuel := by
  induction fuel with
  | zero => intro c e _; rfl
  | succ k ih =>
    intro c e h
    have hce : c ≤ e := by omega
    rw [List.range'_succ]
    simp only [dateLoopAux, if_pos hce]
    rw [ih (c + 1) e (by omega)]

/-- `enumDates s e` is the interval of length `e + 1 - s` starting at
`s`. -/
lemma enumDates_eq_range' (s e : Nat) :
    enumDates s e = List.range' s (e + 1 - s) :=
  dateLoopAux_eq_range' (e + 1 - s) s e rfl

/-- C2 (counterexample): with both dates parsed and `end < start`
(day ordinals 3 < 5), `list_objects` does not fail: it returns a
successful empty listing, so a reversed range does not raise
`InvalidDateRange`. -/
theorem list_objects_reversed_range_returns_ok :
    (3 : Nat) < 5 ∧
      list_objects (some 5) (some (some 3)) (fun _ => .ok []) = .ok [] ∧
      ∀ objs : List S3Object,
        (Except.ok objs : Except Unit (List S3Object)) ≠ .error () :=
  ⟨by decide, rfl, fun _ h => Except.noConfusion h⟩

/-- C2 (amended): `list_objects` raises exactly when a configured date
string fails to parse (start, or a present end); with both parses
succeeding and `end < start` it raises nothing and returns the empty
list. -/
theorem list_objects_date_errors :
    (∀ (endField : Option (Option Nat)) (fetch : Nat → Except ListFailure (List Page)),
        list_objects none endField fetch = .error ()) ∧
    (∀ (s : Nat) (fetch : Nat → Except ListFailure (List Page)),
        list_objects (some s) (some none) fetch = .error ()) ∧
    (∀ (s e : Nat) (fetch : Nat → Except ListFailure (List Page)), e < s →
        list_objects (some s) (some (some e)) fetch = .ok []) := by
  refine ⟨fun _ _ => rfl, fun _ _ => rfl, fun s e fetch h => ?_⟩
  have h0 : e + 1 - s = 0 := by omega
  simp only [list_objects, enumDates, h0, dateLoopAux, collectObjects]

/-- C2 (witness): the amended theorem applied at start ordinal 5, end
ordinal 3. -/
theorem list_objects_date_errors_witness :
    list_objects (some 5) (some (some 3)) (fun _ => .error .clientError) = .ok [] :=
  list_objects_date_errors.2.2 5 3 (fun _ => .error .clientError) (by decide)

/-- C3: for parsed bounds `s <= e` the date loop visits the interval
`[s..e]`: exactly `(e - s) + 1` dates, consecutive (each successor of the
previous), strictly ascending (hence no duplicates), covering precisely
the dates between `s` and `e` (no gaps), starting at `s` and ending at
`e`; and with no end date configured, `list_objects` visits exactly the
single start date. -/
theorem enumDates_complete (s e : Nat) (fetch : Nat → Except ListFailure (List Page))
    (h : s ≤ e) :
    (enumDates s e).length = (e - s) + 1 ∧
    List.Chain' (fun a b => b = a + 1) (enumDates s e) ∧
    List.Pairwise (· < ·) (enumDates s e) ∧
    (∀ m : Nat, m ∈ enumDates s e ↔ s ≤ m ∧ m ≤ e) ∧
    (enumDates s e).head? = some s ∧
    (enumDates s e).getLast? = some e ∧
    list_objects (some s) none fetch = listForDate fetch s := by
  have hr := enumDates_eq_range' s e
  have hn : e + 1 - s = (e - s) + 1 := by omega
  refine ⟨?_, ?_, ?_, ?_, ?_, ?_, ?_⟩
  · rw [hr, List.length_range', hn]
  · rw [hr, List.range'_eq_map_range, List.chain'_map, hn]
    rw [show (e - s) + 1 = (e - s).succ from rfl, List.chain'_range_succ]
    intro m _
    omega
  · rw [hr]
    exact List.pairwise_lt_range' s _
  · intro m
    rw [hr, List.mem_range'_1]
    omega
  · rw [hr, List.head?_range', if_neg (by omega)]
  · rw [hr, List.getLast?_range', if_neg (by omega)]
    have : s + (e + 1 - s) - 1 = e := by omega
    rw [this]
  · have h1 : enumDates s s = [s] := by
      rw [enumDates_eq_range' s s, show s + 1 - s = 1 from by omega]
      rfl
    show collectObjects fetch (enumDates s s) = listForDate fetch s
    rw [h1]
    cases hf : listForDate fetch s with
    | error err => simp only [collectObjects, hf]
    | ok objs => simp only [collectObjects, hf, List.append_nil]

/-- C3 (witness): the interval theorem applied at the concrete range
`[3..6]`. -/
theorem enumDates_complete_witness :
    (enumDates 3 6).length = (6 - 3) + 1 ∧
    List.Chain' (fun a b => b = a + 1) (enumDates 3 6) ∧
    List.Pairwise (· < ·) (enumDates 3 6) ∧
    (∀ m : Nat, m ∈ enumDates 3 6 ↔ 3 ≤ m ∧ m ≤ 6) ∧
    (enumDates 3 6).head? = some 3 ∧
    (enumDates 3 6).getLast? = some 6 ∧
    list_objects (some 3) none (fun _ => .ok []) =
      listForDate (fun _ => .ok []) 3 :=
  enumDates_complete 3 6 (fun _ => .ok []) (by decide)

/-- The success rate a run computes, written out on the counts. -/
lemma validate_success_rate_def (objs : List S3Object)
    (raw proc : Option (List String)) :
    (validate objs raw proc).success_rate =
      (if 0 < (validate_file_count objs raw proc).1 then
        ((validate_file_count objs raw proc).2.2 : ℚ) /
          ((validate_file_count objs raw proc).1 : ℚ) * 100
       else 0) := rfl

/-- A success rate is never negative. -/
lemma validate_success_rate_nonneg (objs : List S3Object)
    (raw proc : Option (List String)) :
    0 ≤ (validate objs raw proc).success_rate := by
  rw [validate_success_rate_def]
  split
  · positivity
  · exact le_refl 0

/-- The status conditional of `generate_report`, characterized for a
non-negative rate. -/
lemma reportStatus_iff (rate : ℚ) (h : 0 ≤ rate) :
    (reportStatus rate = "SUCCESS" ↔ rate = 100) ∧
    (reportStatus rate = "FAILURE" ↔ rate = 0) ∧
    (reportStatus rate = "PARTIAL_SUCCESS" ↔ 0 < rate ∧ rate ≠ 100) := by
  unfold reportStatus
  by_cases h1 : rate = 100
  · rw [if_pos h1]
    refine ⟨by simp [h1], ?_, ?_⟩
    · constructor
      · intro hs; exact absurd hs (by decide)
      · intro h0; rw [h1] at h0; norm_num at h0
    · constructor
      · intro hs; exact absurd hs (by decide)
      · rintro ⟨-, hne⟩; exact absurd h1 hne
  · rw [if_neg h1]
    by_cases h2 : 0 < rate
    · rw [if_pos h2]
      exact ⟨⟨fun hs => absurd hs (by decide), fun h100 => absurd h100 h1⟩,
        ⟨fun hs => absurd hs (by decide),
         fun h0 => absurd h2 (by rw [h0]; exact lt_irrefl 0)⟩,
        ⟨fun _ => ⟨h2, h1⟩, fun _ => rfl⟩⟩
    · rw [if_neg h2]
      have h0 : rate = 0 := le_antisymm (not_lt.mp h2) h
      refine ⟨?_, ⟨fun _ => h0, fun _ => rfl⟩, ?_⟩
      · constructor
        · intro hs; exact absurd hs (by decide)
        · intro h100; rw [h100] at h0; norm_num at h0
      · constructor
        · intro hs; exact absurd hs (by decide)
        · rintro ⟨hp, -⟩; rw [h0] at hp; exact absurd hp (lt_irrefl 0)

/-- C1 (amended): in every reconciliation result,
`0 <= validated_json_files = decompressed_files` and
`downloaded_files <= total_s3_files` hold (the latter whenever the raw
directory listing has no duplicate paths, as a real directory walk
cannot); the remaining link `decompressed_files <= downloaded_files` of
the claimed chain is not enforced by the code. -/
theorem validate_count_chain (objs : List S3Object)
    (raw proc : Option (List String))
    (h : ∀ fs, raw = some fs → fs.Nodup) :
    (validate objs raw proc).validated_json_files =
      (validate objs raw proc).decompressed_files ∧
    (validate objs raw proc).downloaded_files ≤
      (validate objs raw proc).total_s3_files := by
  refine ⟨rfl, ?_⟩
  show (validate_file_count objs raw proc).2.1 ≤
    (validate_file_count objs raw proc).1
  cases raw with
  | none => exact Nat.zero_le _
  | some fs =>
    have hnd : fs.Nodup := h fs rfl
    show (fs.filter
        (fun f => strEndsWith f ".gz" &&
          decide (f ∈ objs.map (·.key)))).length ≤ objs.length
    set keys := objs.map (·.key) with hk
    set p : String → Bool :=
      fun f => strEndsWith f ".gz" && decide (f ∈ keys) with hp
    have h1 : (fs.filter p).Nodup := hnd.filter p
    have h2 : ∀ f ∈ fs.filter p, f ∈ keys := by
      intro f hf
      have hpf : p f = true := (List.mem_filter.mp hf).2
      rw [hp] at hpf
      exact of_decide_eq_true ((Bool.and_eq_true _ _).mp hpf).2
    calc (fs.filter p).length
        = (fs.filter p).toFinset.card := (List.toFinset_card_of_nodup h1).symm
      _ ≤ keys.toFinset.card := Finset.card_le_card
          (fun x hx => List.mem_toFinset.mpr (h2 x (List.mem_toFinset.mp hx)))
      _ ≤ keys.length := List.toFinset_card_le keys
      _ = objs.length := by rw [hk, List.length_map]

/-- C1 (witness): the amended chain at a one-object listing whose raw file
is present and whose processed directory is empty. -/
theorem validate_count_chain_witness :
    (validate [⟨"a.gz", 0, "", 0⟩] (some ["a.gz"]) (some [])).validated_json_files =
      (validate [⟨"a.gz", 0, "", 0⟩] (some ["a.gz"]) (some [])).decompressed_files ∧
    (validate [⟨"a.gz", 0, "", 0⟩] (some ["a.gz"]) (some [])).downloaded_files ≤
      (validate [⟨"a.gz", 0, "", 0⟩] (some ["a.gz"]) (some [])).total_s3_files :=
  validate_count_chain [⟨"a.gz", 0, "", 0⟩] (some ["a.gz"]) (some [])
    (fun fs hfs => by
      injection hfs with h
      exact h ▸ (by decide : List.Nodup ["a.gz"]))

/-- C1 (counterexample): with listing `["a.gz"]`, an empty raw directory
and a stale processed file `a.json`, the result has
`downloaded_files = 0 < 1 = decompressed_files`, breaking the claimed
chain `decompressed <= downloaded`. -/
theorem validate_decompressed_exceeds_downloaded :
    (validate [⟨"a.gz", 0, "", 0⟩] (some []) (some ["a.json"])).downloaded_files <
      (validate [⟨"a.gz", 0, "", 0⟩] (some []) (some ["a.json"])).decompressed_files := by
  decide

/-- C9: the reconciler copies the processed count into both
`decompressed_files` and `validated_json_files` and hardwires
`failed_validations` to the empty list, for every listing and every state
of the two directories — structural-validation failures can never show up
in a `ValidationResult`. -/
theorem validate_no_validation_failures (objs : List S3Object)
    (raw proc : Option (List String)) :
    (validate objs raw proc).validated_json_files =
      (validate objs raw proc).decompressed_files ∧
    (validate objs raw proc).failed_validations = [] :=
  ⟨rfl, rfl⟩

/-- C4 (amended): the reported rate is exactly
`processed / total * 100` (`0` when `total = 0`), and the report status is
`SUCCESS` iff the rate is exactly `100`, `FAILURE` iff it is `0`, and
`PARTIAL_SUCCESS` iff it is positive and different from `100` — not
necessarily below `100`, since stale processed files can push the rate
above `100`. -/
theorem success_rate_and_status (objs : List S3Object)
    (raw proc : Option (List String)) :
    (validate objs raw proc).success_rate =
      (if (validate objs raw proc).total_s3_files = 0 then 0
       else ((validate objs raw proc).decompressed_files : ℚ) /
         ((validate objs raw proc).total_s3_files : ℚ) * 100) ∧
    ((generate_report (validate objs raw proc)).status = "SUCCESS" ↔
      (validate objs raw proc).success_rate = 100) ∧
    ((generate_report (validate objs raw proc)).status = "FAILURE" ↔
      (validate objs raw proc).success_rate = 0) ∧
    ((generate_report (validate objs raw proc)).status = "PARTIAL_SUCCESS" ↔
      (0 < (validate objs raw proc).success_rate ∧
        (validate objs raw proc).success_rate ≠ 100)) := by
  have hiff := reportStatus_iff (validate objs raw proc).success_rate
    (validate_success_rate_nonneg objs raw proc)
  refine ⟨?_, hiff.1, hiff.2.1, hiff.2.2⟩
  rw [validate_success_rate_def]
  show _ = (if (validate_file_count objs raw proc).1 = 0 then (0 : ℚ)
    else ((validate_file_count objs raw proc).2.2 : ℚ) /
      ((validate_file_count objs raw proc).1 : ℚ) * 100)
  rcases Nat.eq_zero_or_pos (validate_file_count objs raw proc).1 with h | h
  · rw [if_neg (by omega), if_pos h]
  · rw [if_pos h, if_neg (by omega)]

/-- C4 (counterexample): one listed object with two stale processed files
that both derive its key gives `success_rate = 200`; the report status is
`PARTIAL_SUCCESS` even though the rate is not below `100`, refuting
`PARTIAL_SUCCESS iff 0 < rate < 100`. -/
theorem status_partial_above_100 :
    (generate_report (validate [⟨"a.gz.gz.gz", 0, "", 0⟩] (some [])
        (some ["a.json.gz.json", "a.gz.gz.json"]))).status = "PARTIAL_SUCCESS" ∧
    ¬ ((validate [⟨"a.gz.gz.gz", 0, "", 0⟩] (some [])
        (some ["a.json.gz.json", "a.gz.gz.json"])).success_rate < 100) := by
  have hc : validate_file_count [⟨"a.gz.gz.gz", 0, "", 0⟩] (some [])
      (some ["a.json.gz.json", "a.gz.gz.json"]) = (1, 0, 2) := by decide
  have hr : (validate [⟨"a.gz.gz.gz", 0, "", 0⟩] (some [])
      (some ["a.json.gz.json", "a.gz.gz.json"])).success_rate = 200 := by
    simp [validate, hc]
    norm_num
  constructor
  · show reportStatus (validate [⟨"a.gz.gz.gz", 0, "", 0⟩] (some [])
      (some ["a.json.gz.json", "a.gz.gz.json"])).success_rate = _
    rw [hr]
    rw [reportStatus, if_neg (by norm_num), if_pos (by norm_num)]
  · rw [hr]
    norm_num

/-- C5: download verification fails whenever the local size differs from
the descriptor's listed size, and its outcome never depends on the store's
content tag (the `expected_etag` argument) nor on the computed digest (the
`hashOutcome`): a size mismatch is never classified as verified. -/
theorem validate_download_size_mismatch :
    (∀ (k : String) (actual expected : Nat) (etag : String)
        (hashOutcome : Except Unit String), actual ≠ expected →
        validate_download k (some actual) expected etag hashOutcome = false) ∧
    (∀ (k : String) (localFile : Option Nat) (expected : Nat)
        (etag1 etag2 : String) (h1 h2 : Except Unit String),
        validate_download k localFile expected etag1 h1 =
          validate_download k localFile expected etag2 h2) := by
  constructor
  · intro k actual expected etag hashOutcome h
    simp [validate_download, h]
  · intro k localFile expected etag1 etag2 h1 h2
    cases localFile <;> rfl

/-- C5 (witness): a 5-byte file against a 6-byte descriptor is rejected
even with a successful digest and matching-looking tags. -/
theorem validate_download_size_mismatch_witness :
    validate_download "k" (some 5) 6 "tag" (.ok "digest") = false :=
  validate_download_size_mismatch.1 "k" 5 6 "tag" (.ok "digest") (by decide)

/-- C10: when the local file exists and its size equals the expected size,
`validate_download` returns true even if the SHA-256 digest computation
raises — the `except` around the hash swallows the failure — so the
outcome is independent of the digest step. -/
theorem validate_download_ignores_hash_failure :
    (∀ (k : String) (sz : Nat) (etag : String),
        validate_download k (some sz) sz etag (.error ()) = true) ∧
    (∀ (k : String) (sz : Nat) (etag : String) (h1 h2 : Except Unit String),
        validate_download k (some sz) sz etag h1 =
          validate_download k (some sz) sz etag h2) := by
  constructor
  · intro k sz etag
    simp [validate_download]
  · intro _ _ _ _ _
    rfl

/-- C6 (amended): `download_file` rejects a local path only through the
system-directory denylist: when the resolved path contains one of
`/etc/ /usr/ /bin/ /sbin/ /root/` it returns failure with no directory
creation and no transfer attempt; it performs no containment check
against a configured local root, so an escaping path that avoids those
segments proceeds to I/O. -/
theorem download_file_denylist_only (p : String) (transfer : Nat → Bool)
    (maxRetries : Nat)
    (h : dangerousSegments.any
      (fun d => containsSub d.data (resolvePath p).data) = true) :
    download_file p transfer maxRetries =
      { succeeded := false, transferAttempts := 0, mkdirCalled := false } := by
  simp only [download_file, h, if_pos]

/-- C6 (witness): a path under `/etc/` is rejected before any directory
creation or transfer. -/
theorem download_file_denylist_only_witness :
    download_file "/etc/passwd" (fun _ => true) 3 =
      { succeeded := false, transferAttempts := 0, mkdirCalled := false } :=
  download_file_denylist_only "/etc/passwd" (fun _ => true) 3 (by decide)

/-- C6 (counterexample): the argument `/data/../home/victim/evil.gz`
contains a `../` segment and resolves to `/home/victim/evil.gz`, outside
the configured root `/data`; yet `download_file` accepts it — it creates
the parent directory and performs a transfer that succeeds — instead of
rejecting it with `UnsafePathError`. -/
theorem download_file_accepts_outside_root :
    containsSub "../".data "/data/../home/victim/evil.gz".data = true ∧
    resolvePath "/data/../home/victim/evil.gz" = "/home/victim/evil.gz" ∧
    specResolvesInsideRoot "/data"
      (resolvePath "/data/../home/victim/evil.gz") = false ∧
    download_file "/data/../home/victim/evil.gz" (fun _ => true) 3 =
      { succeeded := true, transferAttempts := 1, mkdirCalled := true } := by
  decide

/-- C8: structural validation is a total boolean check: it returns true
exactly when the content parsed as a keyed mapping whose `Records` field
is a (possibly empty) sequence, and returns false — rather than raising —
on a parse failure, on a non-mapping document such as a bare array, on a
missing `Records` field, and on a non-sequence `Records`. -/
theorem validate_json_characterization :
    (∀ input : Except Unit JsonValue,
      validate_json input = true ↔
        ∃ fields rs, input = .ok (.obj fields) ∧
          lookupField fields "Records" = some (.arr rs)) ∧
    (∀ e : Unit, validate_json (.error e) = false) ∧
    (∀ xs : List JsonValue, validate_json (.ok (.arr xs)) = false) ∧
    (∀ fields, lookupField fields "Records" = none →
      validate_json (.ok (.obj fields)) = false) ∧
    (∀ fields v, lookupField fields "Records" = some v →
      (∀ rs : List JsonValue, v ≠ .arr rs) →
      validate_json (.ok (.obj fields)) = false) := by
  refine ⟨?_, fun _ => rfl, fun _ => rfl, ?_, ?_⟩
  · intro input
    constructor
    · intro h
      match input with
      | .error _ => exact absurd h (by simp [validate_json])
      | .ok (.obj fields) =>
        rcases hl : lookupField fields "Records" with - | v
        · rw [validate_json, hl] at h
          exact absurd h (by simp)
        · match v, hl with
          | .arr rs, hl => exact ⟨fields, rs, rfl, hl⟩
          | .null, hl | .bool _, hl | .num _, hl | .str _, hl | .obj _, hl =>
            rw [validate_json, hl] at h <;> exact absurd h (by simp)
      | .ok .null | .ok (.bool _) | .ok (.num _) | .ok (.str _) | .ok (.arr _) =>
        exact absurd h (by simp [validate_json])
    · rintro ⟨fields, rs, rfl, hl⟩
      rw [validate_json, hl]
  · intro fields hl
    rw [validate_json, hl]
  · intro fields v hl hv
    match v, hl with
    | .arr rs, hl => exact absurd rfl (hv rs)
    | .null, hl | .bool _, hl | .num _, hl | .str _, hl | .obj _, hl =>
      rw [validate_json, hl]
